import Mathlib

/-!
Verification development for the VisionNoteAI frontend (src/frontend/src/App.jsx).

The development shallowly embeds the pure logic of the component:
the HTML-notes parser `parseNotesContent`, the jsPDF layout loop of
`generatePDF`, the input-validation paths `handleFileChange` /
`handleSubmit` / `handleDownload`, the download filename computation,
and the object-URL lifecycle of the session.

Modelling conventions: DOM nodes become an inductive tree, the parsed
`doc.body.children` collection becomes a `List Element`; the jsPDF
`splitTextToSize` word-wrapper is an external library function and is
passed as an explicit parameter; page geometry values reported by the
library (`pageSize.height` / `pageSize.width`) are integer parameters;
network responses are passed as explicit arguments to the handlers.
-/

set_option maxRecDepth 10000

namespace VisionNote

/-! ## DOM model and `parseNotesContent` (App.jsx lines 164-203) -/

mutual

/-- A DOM node: either a text node or an element node. -/
inductive Node where
  | text (s : String)
  | elem (e : Element)

/-- A DOM element: a tag name together with its child nodes.
`doc.body.children` is modelled as a `List Element` (the DOM
`children` collection contains only element nodes). -/
inductive Element where
  | mk (tag : String) (children : List Node)

end

/-- The element's tag name. -/
def Element.tag : Element → String
  | .mk t _ => t

/-- The element's child nodes. -/
def Element.childNodes : Element → List Node
  | .mk _ cs => cs

mutual

/-- `node.textContent`: concatenation of all descendant text. -/
def Node.textContent : Node → String
  | .text s => s
  | .elem e => e.textContent

/-- `element.textContent`. -/
def Element.textContent : Element → String
  | .mk _ cs => textContentList cs

/-- Concatenated text content of a node list. -/
def textContentList : List Node → String
  | [] => ""
  | n :: ns => n.textContent ++ textContentList ns

end

/-- `element.children`: the immediate child elements (text nodes skipped),
in document order. -/
def childElements (ns : List Node) : List Element :=
  ns.filterMap fun n =>
    match n with
    | .elem e => some e
    | .text _ => none

/-- One content block produced by the parser: the records
`{type: 'heading1', text}`, ..., `{type: 'bulletList', items}`,
`{type: 'numberList', items}` of App.jsx. -/
inductive Block where
  | heading1 (text : String)
  | heading2 (text : String)
  | heading3 (text : String)
  | paragraph (text : String)
  | bulletList (items : List String)
  | numberList (items : List String)
deriving DecidableEq

/-- `parseElement` from App.jsx lines 170-196: classify one top-level
element by its lower-cased tag name.  `text` is the element's trimmed
`textContent`; list items are the trimmed `textContent` of the
element's immediate child elements, in order. -/
def parseElement (e : Element) : Block :=
  let type := e.tag.toLower
  let text := e.textContent.trim
  match type with
  | "h1" => .heading1 text
  | "h2" => .heading2 text
  | "h3" => .heading3 text
  | "p" => .paragraph text
  | "ul" => .bulletList ((childElements e.childNodes).map fun li => li.textContent.trim)
  | "ol" => .numberList ((childElements e.childNodes).map fun li => li.textContent.trim)
  | _ => .paragraph text

/-- `parseNotesContent` from App.jsx lines 164-203, applied to the
parsed body's top-level child elements: each element is pushed through
`parseElement`, in source order. -/
def parseNotesContent (elements : List Element) : List Block :=
  elements.map parseElement

/-! ## The jsPDF layout loop of `generatePDF` (App.jsx lines 205-336)

The loop tracks a cursor `yPos` and the current page, emits positioned
text runs, and starts a new page whenever `yPos > pageHeight - 60` at a
check point.  `pdf.splitTextToSize` (word wrapping against the content
width) is an external jsPDF routine and is a parameter `split`; a
multi-line `pdf.text(lines, x, y)` call places line `k` at vertical
position `y + k * lineHeight`, with `lineHeight` the per-block-type
line height that the code itself uses to advance `yPos`. -/

/-- One positioned text run of the produced PDF. -/
structure Run where
  page : Nat
  x : Int
  y : Int
  text : String
deriving DecidableEq

/-- The mutable layout state of `generatePDF`: the vertical cursor
`yPos`, the current page index, and the runs emitted so far. -/
structure LayoutState where
  yPos : Int
  page : Nat
  runs : List Run
deriving DecidableEq

/-- `const margin = 40` (App.jsx line 225). -/
def margin : Int := 40

/-- The type of the external `pdf.splitTextToSize` word-wrapper:
text and available width to wrapped lines. -/
abbrev SplitFn := String → Int → List String

/-- A multi-line `pdf.text(lines, x, y)` call: line `k` of the block is
placed at `y + k * lineHeight` on the current page. -/
def renderLines (page : Nat) (x y lineHeight : Int) (lines : List String) : List Run :=
  lines.enum.map fun p => { page := page, x := x, y := y + p.1 * lineHeight, text := p.2 }

/-- The page-break check `if (yPos > pageHeight - 60) { pdf.addPage(); yPos = 40; }`
(App.jsx lines 248-251, 300-303, 321-324). -/
def breakCheck (pageHeight : Int) (st : LayoutState) : LayoutState :=
  if st.yPos > pageHeight - 60 then { st with page := st.page + 1, yPos := 40 } else st

/-- One list-item iteration (body of the `forEach` at App.jsx lines
299-311 / 320-332): per-item page-break check, then the marker run at
`margin` and the wrapped item lines at `margin + indent`, then
`yPos += itemLines.length * 14 + 5`. -/
def listItemStep (split : SplitFn) (pageHeight contentWidth indent : Int)
    (label : String) (item : String) (st : LayoutState) : LayoutState :=
  let st := breakCheck pageHeight st
  let itemLines := split item (contentWidth - indent)
  { st with
    runs := st.runs ++ ({ page := st.page, x := margin, y := st.yPos, text := label } ::
              renderLines st.page (margin + indent) st.yPos 14 itemLines),
    yPos := st.yPos + itemLines.length * 14 + 5 }

/-- The `content.items.forEach((item, index) => ...)` loop of the
`bulletList` case (App.jsx lines 299-311): marker `'•'`, indent 15. -/
def renderBulletItems (split : SplitFn) (pageHeight contentWidth : Int) :
    List String → LayoutState → LayoutState
  | [], st => st
  | it :: rest, st =>
      renderBulletItems split pageHeight contentWidth rest
        (listItemStep split pageHeight contentWidth 15 "•" it st)

/-- The `content.items.forEach((item, index) => ...)` loop of the
`numberList` case (App.jsx lines 320-332): marker `` `${index + 1}.` ``,
indent 20; `idx` is the 0-based `index` of the next item. -/
def renderNumberItems (split : SplitFn) (pageHeight contentWidth : Int) :
    Nat → List String → LayoutState → LayoutState
  | _, [], st => st
  | idx, it :: rest, st =>
      renderNumberItems split pageHeight contentWidth (idx + 1) rest
        (listItemStep split pageHeight contentWidth 20 (toString (idx + 1) ++ ".") it st)

/-- One iteration of `parsedContent.forEach(content => ...)` (App.jsx
lines 246-336): the block-level page-break check, then the block-type
switch with its per-type wrap, text calls and `yPos` advance. -/
def processBlock (split : SplitFn) (pageHeight contentWidth : Int)
    (st : LayoutState) (b : Block) : LayoutState :=
  let st := breakCheck pageHeight st
  match b with
  | .heading1 t =>
      let lines := split t contentWidth
      { st with runs := st.runs ++ renderLines st.page margin st.yPos 20 lines,
                yPos := st.yPos + lines.length * 20 + 10 }
  | .heading2 t =>
      let lines := split t contentWidth
      { st with runs := st.runs ++ renderLines st.page margin st.yPos 18 lines,
                yPos := st.yPos + lines.length * 18 + 8 }
  | .heading3 t =>
      let lines := split t contentWidth
      { st with runs := st.runs ++ renderLines st.page margin st.yPos 16 lines,
                yPos := st.yPos + lines.length * 16 + 6 }
  | .paragraph t =>
      let lines := split t contentWidth
      { st with runs := st.runs ++ renderLines st.page margin st.yPos 14 lines,
                yPos := st.yPos + lines.length * 14 + 10 }
  | .bulletList items =>
      let st := renderBulletItems split pageHeight contentWidth items st
      { st with yPos := st.yPos + 5 }
  | .numberList items =>
      let st := renderNumberItems split pageHeight contentWidth 0 items st
      { st with yPos := st.yPos + 5 }

/-- Whether a block is a list block (`bulletList` / `numberList`). -/
def Block.isListBlock : Block → Bool
  | .bulletList _ => true
  | .numberList _ => true
  | _ => false

/-- The state after the title header (App.jsx lines 224-240): `yPos`
starts at 40, the bold `"<topic> Notes"` title run is placed at 40 and
advances the cursor by 25, the `"Generated on <date>"` run at 65
advances it by 30, leaving `yPos = 95` on page 0. -/
def initialState (topic dateLine : String) : LayoutState :=
  { yPos := 95, page := 0,
    runs := [{ page := 0, x := margin, y := 40, text := topic ++ " Notes" },
             { page := 0, x := margin, y := 65, text := "Generated on " ++ dateLine }] }

/-- The `parsedContent.forEach` fold over all blocks. -/
def layoutBlocks (split : SplitFn) (pageHeight contentWidth : Int)
    (st : LayoutState) (bs : List Block) : LayoutState :=
  bs.foldl (processBlock split pageHeight contentWidth) st

/-- The whole layout pass of `generatePDF`: header, then all parsed
blocks, with `contentWidth = pageWidth - (margin * 2)` (App.jsx line 228). -/
def generatePDFLayout (split : SplitFn) (pageHeight pageWidth : Int)
    (topic dateLine : String) (blocks : List Block) : LayoutState :=
  layoutBlocks split pageHeight (pageWidth - margin * 2) (initialState topic dateLine) blocks

/-- A concrete instance of the external word-wrapper, used to
instantiate universally quantified statements: every text wraps to
five lines. -/
def splitFive : SplitFn := fun _ _ => ["l1", "l2", "l3", "l4", "l5"]

/-! ## Supporting lemmas about the layout loop -/

theorem breakCheck_runs (pageHeight : Int) (st : LayoutState) :
    (breakCheck pageHeight st).runs = st.runs := by
  unfold breakCheck; split <;> rfl

theorem breakCheck_of_not {pageHeight : Int} {st : LayoutState}
    (h : ¬ st.yPos > pageHeight - 60) : breakCheck pageHeight st = st := by
  unfold breakCheck; rw [if_neg h]

theorem mem_renderLines {r : Run} {page : Nat} {x y lineHeight : Int} {lines : List String}
    (h : r ∈ renderLines page x y lineHeight lines) : r.page = page ∧ r.x = x := by
  simp only [renderLines, List.mem_map] at h
  obtain ⟨p, -, rfl⟩ := h
  exact ⟨rfl, rfl⟩

theorem renderLines_filter_ne {page : Nat} {x y lineHeight : Int} {lines : List String}
    (h : x ≠ margin) :
    (renderLines page x y lineHeight lines).filter (fun r => r.x == margin) = [] := by
  rw [List.filter_eq_nil_iff]
  intro r hr
  have hx := (mem_renderLines hr).2
  simp [hx, h]

theorem listItemStep_runs (split : SplitFn) (pageHeight contentWidth indent : Int)
    (label item : String) (st : LayoutState) (hind : margin + indent ≠ margin) :
    ∃ L, (listItemStep split pageHeight contentWidth indent label item st).runs
            = st.runs ++ L ∧
        L.filter (fun r => r.x == margin)
            = [{ page := (breakCheck pageHeight st).page, x := margin,
                 y := (breakCheck pageHeight st).yPos, text := label }] := by
  refine ⟨{ page := (breakCheck pageHeight st).page, x := margin,
            y := (breakCheck pageHeight st).yPos, text := label } ::
          renderLines (breakCheck pageHeight st).page (margin + indent)
            (breakCheck pageHeight st).yPos 14 (split item (contentWidth - indent)), ?_, ?_⟩
  · simp [listItemStep, breakCheck_runs]
  · simp [List.filter_cons, renderLines_filter_ne hind]

theorem renderBulletItems_runs_prefix (split : SplitFn) (pageHeight contentWidth : Int) :
    ∀ (items : List String) (st : LayoutState),
      ∃ L, (renderBulletItems split pageHeight contentWidth items st).runs = st.runs ++ L
  | [], st => ⟨[], by simp [renderBulletItems]⟩
  | it :: rest, st => by
      obtain ⟨L0, hL0, -⟩ :=
        listItemStep_runs split pageHeight contentWidth 15 "•" it st (by decide)
      obtain ⟨L1, hL1⟩ := renderBulletItems_runs_prefix split pageHeight contentWidth rest
        (listItemStep split pageHeight contentWidth 15 "•" it st)
      exact ⟨L0 ++ L1, by simp [renderBulletItems, hL1, hL0]⟩

theorem renderNumberItems_runs_prefix (split : SplitFn) (pageHeight contentWidth : Int) :
    ∀ (items : List String) (idx : Nat) (st : LayoutState),
      ∃ L, (renderNumberItems split pageHeight contentWidth idx items st).runs = st.runs ++ L
  | [], _, st => ⟨[], by simp [renderNumberItems]⟩
  | it :: rest, idx, st => by
      obtain ⟨L0, hL0, -⟩ :=
        listItemStep_runs split pageHeight contentWidth 20 (toString (idx + 1) ++ ".") it st
          (by decide)
      obtain ⟨L1, hL1⟩ := renderNumberItems_runs_prefix split pageHeight contentWidth rest
        (idx + 1) (listItemStep split pageHeight contentWidth 20 (toString (idx + 1) ++ ".") it st)
      exact ⟨L0 ++ L1, by simp [renderNumberItems, hL1, hL0]⟩

theorem renderNumberItems_labels (split : SplitFn) (pageHeight contentWidth : Int) :
    ∀ (items : List String) (idx : Nat) (st : LayoutState),
      ((((renderNumberItems split pageHeight contentWidth idx items st).runs.drop
          st.runs.length).filter (fun r => r.x == margin)).map Run.text)
        = (List.range items.length).map (fun i => toString (idx + i + 1) ++ ".")
  | [], idx, st => by simp [renderNumberItems, List.drop_length]
  | it :: rest, idx, st => by
      obtain ⟨L0, hL0, hf0⟩ :=
        listItemStep_runs split pageHeight contentWidth 20 (toString (idx + 1) ++ ".") it st
          (by decide)
      set st1 := listItemStep split pageHeight contentWidth 20 (toString (idx + 1) ++ ".") it st
        with hst1
      obtain ⟨L1, hL1⟩ :=
        renderNumberItems_runs_prefix split pageHeight contentWidth rest (idx + 1) st1
      have ih := renderNumberItems_labels split pageHeight contentWidth rest (idx + 1) st1
      rw [hL1, hL0, List.drop_left] at ih
      have hrun : (renderNumberItems split pageHeight contentWidth idx (it :: rest) st).runs
          = st.runs ++ (L0 ++ L1) := by
        simp only [renderNumberItems, ← hst1, hL1, hL0, List.append_assoc]
      rw [hrun, List.drop_left, List.filter_append, List.map_append, hf0, ih]
      simp only [List.length_cons]
      rw [List.range_succ_eq_map]
      simp only [List.map_cons, List.map_map, List.map_nil, List.nil_append,
        List.cons_append, Nat.add_zero]
      refine congrArg₂ _ rfl (List.map_congr_left ?_)
      intro i _
      simp only [Function.comp]
      congr 2
      omega

theorem renderBulletItems_labels (split : SplitFn) (pageHeight contentWidth : Int) :
    ∀ (items : List String) (st : LayoutState),
      ((((renderBulletItems split pageHeight contentWidth items st).runs.drop
          st.runs.length).filter (fun r => r.x == margin)).map Run.text)
        = List.replicate items.length "•"
  | [], st => by simp [renderBulletItems, List.drop_length]
  | it :: rest, st => by
      obtain ⟨L0, hL0, hf0⟩ :=
        listItemStep_runs split pageHeight contentWidth 15 "•" it st (by decide)
      set st1 := listItemStep split pageHeight contentWidth 15 "•" it st with hst1
      obtain ⟨L1, hL1⟩ :=
        renderBulletItems_runs_prefix split pageHeight contentWidth rest st1
      have ih := renderBulletItems_labels split pageHeight contentWidth rest st1
      rw [hL1, hL0, List.drop_left] at ih
      have hrun : (renderBulletItems split pageHeight contentWidth (it :: rest) st).runs
          = st.runs ++ (L0 ++ L1) := by
        simp only [renderBulletItems, ← hst1, hL1, hL0, List.append_assoc]
      rw [hrun, List.drop_left, List.filter_append, List.map_append, hf0, ih]
      rfl

/-! ## Component state and handlers (App.jsx lines 8-16, 67-162, 348-380)

The React state hooks become an `AppState` record; each handler
becomes a function from the current state (plus the explicit data the
browser or the network hands it) to the new state, together with the
network requests it issues and, where a claim needs them, the error
messages it reports. -/

/-- An uploaded file: its MIME type, size in bytes, and an abstract
identifying content. -/
structure File where
  type : String
  size : Nat
  content : String
deriving DecidableEq

/-- The `useState` hooks of the App component. -/
structure AppState where
  files : List File
  topic : String
  notes : String
  loading : Bool
  error : String
  fileError : String
deriving DecidableEq

/-- `const validTypes = ['image/jpeg', 'image/jpg', 'image/png']`
(App.jsx line 75). -/
def validTypes : List String := ["image/jpeg", "image/jpg", "image/png"]

/-- Per-file validation of `handleFileChange` (App.jsx lines 79-93):
the type check runs first, then the 5 MB size ceiling; the result is
the reported error message for a rejected file, `none` for an accepted
one. -/
def validateFile (f : File) : Option String :=
  if ¬ validTypes.contains f.type then
    some "Please upload valid image files (JPG, JPEG, PNG)"
  else if f.size > 5 * 1024 * 1024 then
    some "One or more files exceed 5MB limit"
  else none

/-- The `for (const file of selectedFiles)` loop of `handleFileChange`:
accepted files are pushed onto `validFiles`, each rejection reports its
message, both in iteration order. -/
def validateLoop : List File → List File × List String
  | [] => ([], [])
  | f :: rest =>
    match validateFile f with
    | some m =>
      let p := validateLoop rest
      (p.1, m :: p.2)
    | none =>
      let p := validateLoop rest
      (f :: p.1, p.2)

/-- `handleFileChange` (App.jsx lines 67-100): clear `fileError`,
return unchanged on an empty selection, otherwise validate every
selected file, report each rejection (each `setFileError` call
overwrites the field; the second component collects the reported
messages in order) and append exactly the accepted files to the file
list.  No network request is made anywhere in this handler. -/
def handleFileChange (st : AppState) (selected : List File) : AppState × List String :=
  let st0 := { st with fileError := "" }
  if selected.length = 0 then (st0, [])
  else
    let validFiles := (validateLoop selected).1
    let errs := (validateLoop selected).2
    let st1 := errs.foldl (fun s m => { s with fileError := m }) st0
    if validFiles.length > 0 then
      ({ st1 with files := st1.files ++ validFiles }, errs)
    else (st1, errs)

/-! ### Cleaning of the generated notes (App.jsx lines 135-139)

`response.data.notes.replace(/` three backticks `[a-z]*\n/g, '')
.replace(/` three backticks `\n/g, '').replace(/` three backticks
`/g, '').trim()` — three global scans removing code-fence markers,
then a trim.  Each scan is modelled as the standard left-to-right
non-overlapping regex replacement. -/

/-- The backtick character. -/
def fenceChar : Char := Char.ofNat 96

/-- Head match of the first scan's pattern (three backticks, a greedy
run of lowercase letters, a newline): returns the remainder after the
match. -/
def fenceLangMatch (l : List Char) : Option (List Char) :=
  match l with
  | a :: b :: c :: rest =>
    if a = fenceChar ∧ b = fenceChar ∧ c = fenceChar then
      match rest.dropWhile Char.isLower with
      | d :: rest2 => if d = '\n' then some rest2 else none
      | [] => none
    else none
  | _ => none

/-- Head match of the second scan's pattern (three backticks then a
newline). -/
def fenceNLMatch (l : List Char) : Option (List Char) :=
  match l with
  | a :: b :: c :: d :: rest =>
    if a = fenceChar ∧ b = fenceChar ∧ c = fenceChar ∧ d = '\n' then some rest else none
  | _ => none

/-- Head match of the third scan's pattern (three backticks). -/
def fenceMatch (l : List Char) : Option (List Char) :=
  match l with
  | a :: b :: c :: rest =>
    if a = fenceChar ∧ b = fenceChar ∧ c = fenceChar then some rest else none
  | _ => none

/-!
Each scan walks the text left to right, trying its pattern at every
position and continuing after each match (the semantics of a global
regex replacement).  Every step consumes at least one character, so
the input length bounds the number of steps; passing it as an explicit
fuel argument keeps the recursion structural (hence computable by the
kernel), and the fuel never runs out on the initial call. -/

/-- First scan: globally delete every occurrence of three backticks
followed by a lowercase-letter run and a newline. -/
def stripFenceLangGo : Nat → List Char → List Char
  | _, [] => []
  | 0, l => l
  | fuel + 1, c :: rest =>
    match fenceLangMatch (c :: rest) with
    | some rest2 => stripFenceLangGo fuel rest2
    | none => c :: stripFenceLangGo fuel rest

/-- First scan at full fuel. -/
def stripFenceLang (l : List Char) : List Char := stripFenceLangGo l.length l

/-- Second scan: globally delete every occurrence of three backticks
followed by a newline. -/
def stripFenceNLGo : Nat → List Char → List Char
  | _, [] => []
  | 0, l => l
  | fuel + 1, c :: rest =>
    match fenceNLMatch (c :: rest) with
    | some rest2 => stripFenceNLGo fuel rest2
    | none => c :: stripFenceNLGo fuel rest

/-- Second scan at full fuel. -/
def stripFenceNL (l : List Char) : List Char := stripFenceNLGo l.length l

/-- Third scan: globally delete every occurrence of three backticks. -/
def stripFenceGo : Nat → List Char → List Char
  | _, [] => []
  | 0, l => l
  | fuel + 1, c :: rest =>
    match fenceMatch (c :: rest) with
    | some rest2 => stripFenceGo fuel rest2
    | none => c :: stripFenceGo fuel rest

/-- Third scan at full fuel. -/
def stripFence (l : List Char) : List Char := stripFenceGo l.length l

/-- The JavaScript `String.prototype.trim()`: strip leading and
trailing whitespace (modelled over the ASCII whitespace characters). -/
def jsTrim (s : String) : String :=
  String.mk (((s.data.dropWhile Char.isWhitespace).reverse.dropWhile
    Char.isWhitespace).reverse)

/-- The per-response cleanup of `handleSubmit` (App.jsx lines 135-139):
the three fence-removal scans followed by `.trim()`. -/
def cleanNotes (s : String) : String :=
  jsTrim (String.mk (stripFence (stripFenceNL (stripFenceLang s.data))))

/-- `handleSubmit` (App.jsx lines 102-151) with the per-file response
bodies of the successful network calls passed explicitly: the two
guards block the submission with an error message and no request;
otherwise one request per file is posted in list order and the notes
state becomes the concatenation of the cleaned responses, each
followed by a newline.  The first component lists the issued requests
(file and topic of each POST). -/
def handleSubmit (st : AppState) (responses : List String) :
    List (File × String) × AppState :=
  if st.files.length = 0 then
    ([], { st with fileError := "Please upload at least one image file" })
  else if jsTrim st.topic = "" then
    ([], { st with error := "Please enter a subject/topic" })
  else
    (st.files.map fun f => (f, st.topic),
     { st with loading := false, error := "",
               notes := String.join (responses.map fun r => cleanNotes r ++ "\n") })

/-- The requests issued by `handleDownload` (App.jsx lines 348-364):
nothing when the guard fires (no files, or blank topic), otherwise a
single request carrying `files[0]` and the topic. -/
def handleDownloadRequests (st : AppState) : List (File × String) :=
  match st.files with
  | [] => []
  | f :: _ => if jsTrim st.topic = "" then [] else [(f, st.topic)]

/-- The `try/catch` of `generatePDF` (App.jsx lines 205-346) acting on
the component state: the try body (parsing, layout, rendering, blob
creation) either succeeds or throws; it calls no state setter, and the
catch arm only sets the generic error message. -/
def generatePDFHandler (st : AppState) (outcome : Except String (List Run)) : AppState :=
  match outcome with
  | .ok _ => st
  | .error _ => { st with error := "Failed to generate PDF. Please try again." }

/-- The filename assigned by `handleDownload` (App.jsx line 371):
`` `${topic.toLowerCase().replace(/\\s+/g, '-')}-notes.pdf` ``.
Inside a JavaScript regex literal `\\s` is an escaped backslash
followed by the letter `s`, so the pattern matches a literal
backslash followed by one or more `s` characters — not whitespace. -/
def bsMatch (l : List Char) : Option (List Char) :=
  match l with
  | a :: b :: rest =>
    if a = '\\' ∧ b = 's' then some (rest.dropWhile (fun c => c == 's')) else none
  | _ => none

/-- The global replacement `.replace(/\\s+/g, '-')`: each match of a
literal backslash followed by a greedy run of `s` characters is
replaced by `'-'` (fuel-structured scan as above). -/
def collapseBackslashSGo : Nat → List Char → List Char
  | _, [] => []
  | 0, l => l
  | fuel + 1, c :: rest =>
    match bsMatch (c :: rest) with
    | some rest2 => '-' :: collapseBackslashSGo fuel rest2
    | none => c :: collapseBackslashSGo fuel rest

/-- The replacement at full fuel. -/
def collapseBackslashS (l : List Char) : List Char := collapseBackslashSGo l.length l

/-- The full download filename of App.jsx line 371:
`topic.toLowerCase()` maps every character to lowercase, then the
replacement runs, then `-notes.pdf` is appended. -/
def downloadFilename (topic : String) : String :=
  String.mk (collapseBackslashS (topic.data.map Char.toLower)) ++ "-notes.pdf"

/-! ## Supporting lemmas about the handlers -/

theorem validateLoop_eq (l : List File) :
    validateLoop l
      = (l.filter (fun f => (validateFile f).isNone), l.filterMap validateFile) := by
  induction l with
  | nil => rfl
  | cons f rest ih =>
    simp only [validateLoop, ih]
    cases h : validateFile f <;> simp [List.filter_cons, List.filterMap_cons, h]

theorem foldl_fileError_files (errs : List String) (st : AppState) :
    (errs.foldl (fun s m => { s with fileError := m }) st).files = st.files := by
  induction errs generalizing st with
  | nil => rfl
  | cons m rest ih => simp [List.foldl_cons, ih]

/-- Concrete sample files used to instantiate witnesses. -/
def pngFile : File := { type := "image/png", size := 1000, content := "a" }

def jpegFile : File := { type := "image/jpeg", size := 2000, content := "b" }

def gifFile : File := { type := "image/gif", size := 1000, content := "c" }

def bigPngFile : File := { type := "image/png", size := 6 * 1024 * 1024, content := "d" }

/-- A sample component state with no uploaded file. -/
def noFilesState : AppState :=
  { files := [], topic := "Math", notes := "old", loading := false,
    error := "", fileError := "" }

/-- A sample component state with two uploaded files. -/
def twoFilesState : AppState :=
  { files := [pngFile, jpegFile], topic := "Math", notes := "old", loading := false,
    error := "", fileError := "" }

/-! ## Object-URL lifecycle (App.jsx lines 18-32, 153-162, 338-341, 366-375)

Object URLs are modelled as handles allocated from a counter.  A
session is a list of user events; each event emits the
`URL.createObjectURL` / `URL.revokeObjectURL` calls its handler and
the `previewUrls` cleanup effect perform, and unmounting the component
finally revokes the current preview URLs (the `useEffect` cleanup at
lines 28-32, which also runs on every change of `previewUrls`,
revoking the previous array). -/

/-- A `URL.createObjectURL` or `URL.revokeObjectURL` call on handle `h`. -/
inductive UrlAction where
  | create (h : Nat)
  | revoke (h : Nat)
deriving DecidableEq

/-- The session state: number of uploaded files, current preview URL
handles, handles created by the `generatePDF` preview path, and the
allocation counter. -/
structure SessionState where
  nFiles : Nat
  previews : List Nat
  pdfHandles : List Nat
  counter : Nat
deriving DecidableEq

/-- A user event of the session. -/
inductive SessionEvent where
  | fileChange (k : Nat)
  | removeFile (i : Nat)
  | genPDF
  | download
deriving DecidableEq

/-- The initial session state. -/
def initSession : SessionState :=
  { nFiles := 0, previews := [], pdfHandles := [], counter := 0 }

/-- One event step.
`fileChange k` (k accepted files; `k = 0` returns early):
`createPreviewUrls(newFiles)` creates a fresh URL for every file of
the new list (old files included), and the effect cleanup then revokes
the previous array.  `removeFile i`: the removed entry is revoked
explicitly and the effect cleanup revokes the whole previous array.
`genPDF`: a fresh blob URL is created for the preview PDF and never
revoked.  `download` (guarded on a nonempty file list): a fresh blob
URL is created and revoked after the click. -/
def stepEvent (st : SessionState) : SessionEvent → SessionState × List UrlAction
  | .fileChange k =>
    if k = 0 then (st, [])
    else
      let n := st.nFiles + k
      let newPrev := List.range' st.counter n
      ({ st with nFiles := n, previews := newPrev, counter := st.counter + n },
       newPrev.map UrlAction.create ++ st.previews.map UrlAction.revoke)
  | .removeFile i =>
    if i < st.previews.length then
      ({ st with nFiles := st.nFiles - 1, previews := st.previews.eraseIdx i },
       UrlAction.revoke (st.previews.getD i 0) :: st.previews.map UrlAction.revoke)
    else (st, [])
  | .genPDF =>
    ({ st with pdfHandles := st.counter :: st.pdfHandles, counter := st.counter + 1 },
     [UrlAction.create st.counter])
  | .download =>
    if st.nFiles = 0 then (st, [])
    else ({ st with counter := st.counter + 1 },
          [UrlAction.create st.counter, UrlAction.revoke st.counter])

/-- Run a list of events, accumulating the emitted actions. -/
def runEvents (st : SessionState) : List SessionEvent → SessionState × List UrlAction
  | [] => (st, [])
  | e :: rest =>
    let p := stepEvent st e
    let q := runEvents p.1 rest
    (q.1, p.2 ++ q.2)

/-- The full action trace of a session: the events' actions followed
by the unmount cleanup, which revokes the current preview URLs. -/
def sessionTrace (evs : List SessionEvent) : List UrlAction :=
  (runEvents initSession evs).2
    ++ (runEvents initSession evs).1.previews.map UrlAction.revoke

theorem stepEvent_pdfHandles_mono (st : SessionState) (e : SessionEvent)
    {h : Nat} (hh : h ∈ st.pdfHandles) : h ∈ (stepEvent st e).1.pdfHandles := by
  cases e with
  | fileChange k => simp only [stepEvent]; split <;> exact hh
  | removeFile i => simp only [stepEvent]; split <;> exact hh
  | genPDF => exact List.mem_cons_of_mem _ hh
  | download => simp only [stepEvent]; split <;> exact hh

theorem stepEvent_previews_fate (st : SessionState) (e : SessionEvent)
    {h : Nat} (hh : h ∈ st.previews) :
    h ∈ (stepEvent st e).1.previews ∨ UrlAction.revoke h ∈ (stepEvent st e).2 := by
  cases e with
  | fileChange k =>
    by_cases hk : k = 0
    · simp only [stepEvent, if_pos hk]
      exact Or.inl hh
    · simp only [stepEvent, if_neg hk]
      refine Or.inr ?_
      rw [List.mem_append]
      exact Or.inr (List.mem_map_of_mem _ hh)
  | removeFile i =>
    by_cases hi : i < st.previews.length
    · simp only [stepEvent, if_pos hi]
      exact Or.inr (List.mem_cons_of_mem _ (List.mem_map_of_mem _ hh))
    · simp only [stepEvent, if_neg hi]
      exact Or.inl hh
  | genPDF => exact Or.inl hh
  | download =>
    simp only [stepEvent]
    split <;> exact Or.inl hh

theorem stepEvent_create_fate (st : SessionState) (e : SessionEvent)
    {h : Nat} (hc : UrlAction.create h ∈ (stepEvent st e).2) :
    h ∈ (stepEvent st e).1.pdfHandles
      ∨ UrlAction.revoke h ∈ (stepEvent st e).2
      ∨ h ∈ (stepEvent st e).1.previews := by
  cases e with
  | fileChange k =>
    by_cases hk : k = 0
    · rw [stepEvent, if_pos hk] at hc
      simp at hc
    · rw [stepEvent, if_neg hk] at hc
      rw [List.mem_append] at hc
      rcases hc with hc | hc
      · refine Or.inr (Or.inr ?_)
        rw [stepEvent, if_neg hk]
        obtain ⟨m, hm, hmeq⟩ := List.mem_map.mp hc
        cases hmeq
        exact hm
      · obtain ⟨m, -, hmeq⟩ := List.mem_map.mp hc
        exact absurd hmeq (by simp)
  | removeFile i =>
    by_cases hi : i < st.previews.length
    · rw [stepEvent, if_pos hi] at hc
      rcases List.mem_cons.mp hc with hmeq | hc2
      · exact absurd hmeq (by simp)
      · obtain ⟨m, -, hmeq⟩ := List.mem_map.mp hc2
        exact absurd hmeq (by simp)
    · rw [stepEvent, if_neg hi] at hc
      simp at hc
  | genPDF =>
    rw [stepEvent] at hc
    rcases List.mem_singleton.mp hc with hmeq
    cases hmeq
    exact Or.inl (List.mem_cons_self _ _)
  | download =>
    by_cases hn : st.nFiles = 0
    · rw [stepEvent, if_pos hn] at hc
      simp at hc
    · rw [stepEvent, if_neg hn] at hc
      rcases List.mem_cons.mp hc with hmeq | hc2
      · cases hmeq
        refine Or.inr (Or.inl ?_)
        rw [stepEvent, if_neg hn]
        exact List.mem_cons_of_mem _ (List.mem_singleton_self _)
      · exact absurd (List.mem_singleton.mp hc2) (by simp)

theorem runEvents_pdfHandles_mono (evs : List SessionEvent) (st : SessionState)
    {h : Nat} (hh : h ∈ st.pdfHandles) : h ∈ (runEvents st evs).1.pdfHandles := by
  induction evs generalizing st with
  | nil => exact hh
  | cons e rest ih => exact ih _ (stepEvent_pdfHandles_mono st e hh)

theorem runEvents_previews_fate (evs : List SessionEvent) (st : SessionState)
    {h : Nat} (hh : h ∈ st.previews) :
    h ∈ (runEvents st evs).1.previews ∨ UrlAction.revoke h ∈ (runEvents st evs).2 := by
  induction evs generalizing st with
  | nil => exact Or.inl hh
  | cons e rest ih =>
    simp only [runEvents, List.mem_append]
    rcases stepEvent_previews_fate st e hh with hin | hrv
    · rcases ih _ hin with hfin | hfrv
      · exact Or.inl hfin
      · exact Or.inr (Or.inr hfrv)
    · exact Or.inr (Or.inl hrv)

theorem runEvents_create_fate (evs : List SessionEvent) (st : SessionState)
    {h : Nat} (hc : UrlAction.create h ∈ (runEvents st evs).2) :
    h ∈ (runEvents st evs).1.pdfHandles
      ∨ UrlAction.revoke h ∈ (runEvents st evs).2
      ∨ h ∈ (runEvents st evs).1.previews := by
  induction evs generalizing st with
  | nil => simp [runEvents] at hc
  | cons e rest ih =>
    simp only [runEvents, List.mem_append] at hc ⊢
    rcases hc with hc | hc
    · rcases stepEvent_create_fate st e hc with hpd | hrv | hpv
      · exact Or.inl (runEvents_pdfHandles_mono rest _ hpd)
      · exact Or.inr (Or.inl (Or.inl hrv))
      · rcases runEvents_previews_fate rest _ hpv with hfin | hfrv
        · exact Or.inr (Or.inr hfin)
        · exact Or.inr (Or.inl (Or.inr hfrv))
    · rcases ih _ hc with hin | hrv | hpv
      · exact Or.inl hin
      · exact Or.inr (Or.inl (Or.inr hrv))
      · exact Or.inr (Or.inr hpv)

/-! ## Claim theorems -/

/-- C1: `parseNotesContent` returns exactly one `ContentBlock` per
top-level child element of the parsed body, in source order, classified
by lower-cased tag name: `h1`/`h2`/`h3` to the three heading types,
`p` to paragraph, `ul` to bulletList and `ol` to numberList with items
the trimmed text of each immediate child element in order, and any
other tag name to paragraph with the element's flattened trimmed text;
no block is dropped or reordered. -/
theorem parseNotesContent_classifies (es : List Element) :
    (parseNotesContent es).length = es.length ∧
    parseNotesContent es = es.map (fun e =>
      match e.tag.toLower with
      | "h1" => Block.heading1 e.textContent.trim
      | "h2" => Block.heading2 e.textContent.trim
      | "h3" => Block.heading3 e.textContent.trim
      | "p" => Block.paragraph e.textContent.trim
      | "ul" => Block.bulletList
          ((childElements e.childNodes).map fun li => li.textContent.trim)
      | "ol" => Block.numberList
          ((childElements e.childNodes).map fun li => li.textContent.trim)
      | _ => Block.paragraph e.textContent.trim) := by
  refine ⟨by simp [parseNotesContent], ?_⟩
  unfold parseNotesContent
  exact List.map_congr_left fun e _ => rfl

/-- C2 counterexample: with a five-line wrap, page height 200
(threshold 140) and a single paragraph block laid out from the header
cursor `yPos = 95`, the paragraph does not fit in the remaining space
(its lines reach `y = 151 > 140`) yet fits entirely on a fresh page
(all its lines stay at `y ≤ 140` when started at 40, as the third
conjunct shows); still no page break is inserted (every run stays on
page 0) and a line of this non-list block is placed below
`pageHeight - 60` — refuting the claim. -/
theorem pageBreak_claim_counterexample :
    (∃ r ∈ (generatePDFLayout splitFive 200 300 "T" "D" [Block.paragraph "x"]).runs,
        r.y > 200 - 60) ∧
    (∀ r ∈ (generatePDFLayout splitFive 200 300 "T" "D" [Block.paragraph "x"]).runs,
        r.page = 0) ∧
    (∀ r ∈ (processBlock splitFive 200 220 ⟨40, 1, []⟩ (Block.paragraph "x")).runs,
        r.y ≤ 200 - 60) := by
  decide

/-- C2 amended: before each block (and, independently, before each list
item) the current cursor is compared against `pageHeight - 60`; exactly
when it exceeds the threshold a page break is inserted (page index
incremented, cursor reset to 40).  A non-list block is never split:
all its lines land on the single page current after its check.  The
check does not take the upcoming block's height into account, so lines
of a non-list block can be placed below `pageHeight - 60` (see the
counterexample). -/
theorem pageBreak_amended (split : SplitFn) (pageHeight contentWidth : Int)
    (st : LayoutState) (b : Block) (hb : b.isListBlock = false) :
    ((breakCheck pageHeight st).page
        = if st.yPos > pageHeight - 60 then st.page + 1 else st.page) ∧
    ((breakCheck pageHeight st).yPos
        = if st.yPos > pageHeight - 60 then 40 else st.yPos) ∧
    (∀ r ∈ (processBlock split pageHeight contentWidth st b).runs.drop st.runs.length,
        r.page = (breakCheck pageHeight st).page) ∧
    (∀ indent label item,
      ∀ r ∈ (listItemStep split pageHeight contentWidth indent label item st).runs.drop
          st.runs.length,
        r.page = (breakCheck pageHeight st).page) := by
  refine ⟨?_, ?_, ?_, ?_⟩
  · unfold breakCheck; split <;> rfl
  · unfold breakCheck; split <;> rfl
  · intro r hr
    cases b with
    | heading1 t =>
        simp only [processBlock, breakCheck_runs, List.drop_left] at hr
        exact (mem_renderLines hr).1
    | heading2 t =>
        simp only [processBlock, breakCheck_runs, List.drop_left] at hr
        exact (mem_renderLines hr).1
    | heading3 t =>
        simp only [processBlock, breakCheck_runs, List.drop_left] at hr
        exact (mem_renderLines hr).1
    | paragraph t =>
        simp only [processBlock, breakCheck_runs, List.drop_left] at hr
        exact (mem_renderLines hr).1
    | bulletList items => simp [Block.isListBlock] at hb
    | numberList items => simp [Block.isListBlock] at hb
  · intro indent label item r hr
    simp only [listItemStep, breakCheck_runs, List.drop_left, List.mem_cons] at hr
    rcases hr with rfl | hr
    · rfl
    · exact (mem_renderLines hr).1

/-- Witness for `pageBreak_amended` at a concrete instance. -/
theorem pageBreak_amended_witness :
    (((breakCheck 200 (initialState "T" "D")).page
        = if (initialState "T" "D").yPos > 200 - 60 then (initialState "T" "D").page + 1
          else (initialState "T" "D").page) ∧
    ((breakCheck 200 (initialState "T" "D")).yPos
        = if (initialState "T" "D").yPos > 200 - 60 then 40 else (initialState "T" "D").yPos) ∧
    (∀ r ∈ (processBlock splitFive 200 220 (initialState "T" "D")
          (Block.paragraph "x")).runs.drop (initialState "T" "D").runs.length,
        r.page = (breakCheck 200 (initialState "T" "D")).page) ∧
    (∀ indent label item,
      ∀ r ∈ (listItemStep splitFive 200 220 indent label item
            (initialState "T" "D")).runs.drop (initialState "T" "D").runs.length,
        r.page = (breakCheck 200 (initialState "T" "D")).page)) :=
  pageBreak_amended splitFive 200 220 (initialState "T" "D") (Block.paragraph "x") rfl

/-- C7: in the rendered output of a `numberList` block with `K` items
the marker runs (the runs placed at `x = margin`) are exactly the
labels `"1."` through `"K."` in item order — contiguous and local to
the list for every starting state, hence also across any page break
between items — and for a `bulletList` every marker run is the fixed
glyph `'•'`. -/
theorem numberList_labels (split : SplitFn) (pageHeight contentWidth : Int)
    (st : LayoutState) (items : List String) :
    ((((processBlock split pageHeight contentWidth st (Block.numberList items)).runs.drop
        st.runs.length).filter (fun r => r.x == margin)).map Run.text)
      = (List.range items.length).map (fun i => toString (i + 1) ++ ".") ∧
    ((((processBlock split pageHeight contentWidth st (Block.bulletList items)).runs.drop
        st.runs.length).filter (fun r => r.x == margin)).map Run.text)
      = List.replicate items.length "•" := by
  constructor
  · have h := renderNumberItems_labels split pageHeight contentWidth items 0
      (breakCheck pageHeight st)
    rw [breakCheck_runs] at h
    simp only [processBlock]
    rw [h]
    exact List.map_congr_left fun i _ => by congr 2; omega
  · have h := renderBulletItems_labels split pageHeight contentWidth items
      (breakCheck pageHeight st)
    rw [breakCheck_runs] at h
    simpa only [processBlock] using h

/-- C8: vertical advances of the layout cursor (for a starting state at
which the block-level page-break check does not fire): Heading(1)
advances by `lines * 20 + 10`, Heading(2) by `lines * 18 + 8`,
Heading(3) by `lines * 16 + 6`, a paragraph by `lines * 14 + 10`, each
list item by `lines * 14 + 5`, and a whole list adds a trailing 5
after its last item; the margin is 40 units and the content width is
the page width minus `2 * 40`. -/
theorem cursor_advances (split : SplitFn) (pageHeight contentWidth : Int)
    (st : LayoutState) (hb : ¬ st.yPos > pageHeight - 60) :
    (∀ t, (processBlock split pageHeight contentWidth st (Block.heading1 t)).yPos
        = st.yPos + (split t contentWidth).length * 20 + 10) ∧
    (∀ t, (processBlock split pageHeight contentWidth st (Block.heading2 t)).yPos
        = st.yPos + (split t contentWidth).length * 18 + 8) ∧
    (∀ t, (processBlock split pageHeight contentWidth st (Block.heading3 t)).yPos
        = st.yPos + (split t contentWidth).length * 16 + 6) ∧
    (∀ t, (processBlock split pageHeight contentWidth st (Block.paragraph t)).yPos
        = st.yPos + (split t contentWidth).length * 14 + 10) ∧
    (∀ indent label item,
      (listItemStep split pageHeight contentWidth indent label item st).yPos
        = st.yPos + (split item (contentWidth - indent)).length * 14 + 5) ∧
    (∀ items, (processBlock split pageHeight contentWidth st (Block.bulletList items)).yPos
        = (renderBulletItems split pageHeight contentWidth items st).yPos + 5) ∧
    (∀ items, (processBlock split pageHeight contentWidth st (Block.numberList items)).yPos
        = (renderNumberItems split pageHeight contentWidth 0 items st).yPos + 5) ∧
    margin = 40 ∧
    (∀ (pageWidth : Int) (topic dateLine : String) (blocks : List Block),
      generatePDFLayout split pageHeight pageWidth topic dateLine blocks
        = layoutBlocks split pageHeight (pageWidth - 2 * 40)
            (initialState topic dateLine) blocks) := by
  have hbc : breakCheck pageHeight st = st := breakCheck_of_not hb
  refine ⟨fun t => ?_, fun t => ?_, fun t => ?_, fun t => ?_,
    fun indent label item => ?_, fun items => ?_, fun items => ?_, rfl,
    fun pageWidth topic dateLine blocks => ?_⟩ <;>
    simp only [processBlock, listItemStep, generatePDFLayout, hbc]
  rfl

/-- Witness for `cursor_advances` at a concrete instance. -/
theorem cursor_advances_witness :
    ((∀ t, (processBlock splitFive 200 220 (initialState "T" "D")
          (Block.heading1 t)).yPos
        = (initialState "T" "D").yPos + (splitFive t 220).length * 20 + 10) ∧
    (∀ t, (processBlock splitFive 200 220 (initialState "T" "D")
          (Block.heading2 t)).yPos
        = (initialState "T" "D").yPos + (splitFive t 220).length * 18 + 8) ∧
    (∀ t, (processBlock splitFive 200 220 (initialState "T" "D")
          (Block.heading3 t)).yPos
        = (initialState "T" "D").yPos + (splitFive t 220).length * 16 + 6) ∧
    (∀ t, (processBlock splitFive 200 220 (initialState "T" "D")
          (Block.paragraph t)).yPos
        = (initialState "T" "D").yPos + (splitFive t 220).length * 14 + 10) ∧
    (∀ indent label item,
      (listItemStep splitFive 200 220 indent label item (initialState "T" "D")).yPos
        = (initialState "T" "D").yPos + (splitFive item (220 - indent)).length * 14 + 5) ∧
    (∀ items, (processBlock splitFive 200 220 (initialState "T" "D")
          (Block.bulletList items)).yPos
        = (renderBulletItems splitFive 200 220 items (initialState "T" "D")).yPos + 5) ∧
    (∀ items, (processBlock splitFive 200 220 (initialState "T" "D")
          (Block.numberList items)).yPos
        = (renderNumberItems splitFive 200 220 0 items (initialState "T" "D")).yPos + 5) ∧
    margin = 40 ∧
    (∀ (pageWidth : Int) (topic dateLine : String) (blocks : List Block),
      generatePDFLayout splitFive 200 pageWidth topic dateLine blocks
        = layoutBlocks splitFive 200 (pageWidth - 2 * 40)
            (initialState topic dateLine) blocks)) :=
  cursor_advances splitFive 200 220 (initialState "T" "D") (by decide)

/-- C3 (code bug): at topic `"WW2 History"` the download filename is
`"ww2 history-notes.pdf"` — the space survives, because the regex
literal `/\\s+/g` matches a literal backslash followed by `s`
characters rather than whitespace; the second conjunct shows what the
replacement actually rewrites.  The spec's stated result for this
topic is `"ww2-history-notes.pdf"`. -/
theorem downloadFilename_eval :
    downloadFilename "WW2 History" = "ww2 history-notes.pdf" ∧
    downloadFilename "a\\ssb" = "a-b-notes.pdf" :=
  ⟨rfl, rfl⟩

/-- C4: a submission with an empty file list, or an empty or
whitespace-only topic, is blocked entirely: no request is issued, the
notes state is unchanged, and the corresponding error message is set
(`fileError` for the missing files, `error` for the missing topic). -/
theorem submit_guards (st : AppState) (responses : List String)
    (h : st.files = [] ∨ jsTrim st.topic = "") :
    (handleSubmit st responses).1 = [] ∧
    (handleSubmit st responses).2.notes = st.notes ∧
    (st.files = [] →
      (handleSubmit st responses).2.fileError = "Please upload at least one image file") ∧
    (st.files ≠ [] →
      (handleSubmit st responses).2.error = "Please enter a subject/topic") := by
  by_cases hf : st.files = []
  · simp [handleSubmit, hf]
  · have hlen : ¬ st.files.length = 0 := by simpa [List.length_eq_zero] using hf
    have ht : jsTrim st.topic = "" := h.resolve_left hf
    simp [handleSubmit, hlen, ht, hf]

/-- Witness for `submit_guards`: the state without uploaded files. -/
theorem submit_guards_witness :
    ((handleSubmit noFilesState ["r"]).1 = [] ∧
    (handleSubmit noFilesState ["r"]).2.notes = noFilesState.notes ∧
    (noFilesState.files = [] →
      (handleSubmit noFilesState ["r"]).2.fileError = "Please upload at least one image file") ∧
    (noFilesState.files ≠ [] →
      (handleSubmit noFilesState ["r"]).2.error = "Please enter a subject/topic")) :=
  submit_guards noFilesState ["r"] (Or.inl rfl)

/-- C5: in every selected batch, exactly the valid files are appended
to the file list, in order — each rejected file is skipped without
blocking the rest — and a file is rejected with the type error exactly
when its MIME type is not `image/jpeg`, `image/jpg` or `image/png`,
and with the size error when the type is valid but the size exceeds
5 MB; `handleFileChange` issues no network request (its embedding has
no request component at all). -/
theorem fileChange_validation (st : AppState) (selected : List File) :
    (handleFileChange st selected).1.files
        = st.files ++ selected.filter (fun f => (validateFile f).isNone) ∧
    (handleFileChange st selected).2 = selected.filterMap validateFile ∧
    (∀ f : File, (validateFile f).isNone = true ↔
        (f.type ∈ validTypes ∧ f.size ≤ 5 * 1024 * 1024)) ∧
    (∀ f : File, f.type ∉ validTypes →
        validateFile f = some "Please upload valid image files (JPG, JPEG, PNG)") ∧
    (∀ f : File, f.type ∈ validTypes → f.size > 5 * 1024 * 1024 →
        validateFile f = some "One or more files exceed 5MB limit") := by
  refine ⟨?_, ?_, ?_, ?_, ?_⟩
  · by_cases hl : selected.length = 0
    · have : selected = [] := List.length_eq_zero.mp hl
      simp [handleFileChange, this]
    · simp only [handleFileChange, validateLoop_eq, hl, if_neg hl, if_false]
      by_cases hv : (selected.filter (fun f => (validateFile f).isNone)).length > 0
      · simp [hv, foldl_fileError_files]
      · have : selected.filter (fun f => (validateFile f).isNone) = [] := by
          simpa [List.length_eq_zero] using hv
        simp [hv, foldl_fileError_files, this]
  · by_cases hl : selected.length = 0
    · have : selected = [] := List.length_eq_zero.mp hl
      simp [handleFileChange, this]
    · simp only [handleFileChange, validateLoop_eq, hl, if_neg hl, if_false]
      by_cases hv : (selected.filter (fun f => (validateFile f).isNone)).length > 0 <;>
        simp [hv]
  · intro f
    have hciff : validTypes.contains f.type = true ↔ f.type ∈ validTypes :=
      List.elem_iff
    simp only [validateFile]
    split
    · rename_i hc
      simp only [Option.isNone_some, Bool.false_eq_true, false_iff]
      rintro ⟨hm, -⟩
      exact hc (hciff.mpr hm)
    · rename_i hc
      have hm : f.type ∈ validTypes := hciff.mp (not_not.mp hc)
      split
      · rename_i hs
        simp only [Option.isNone_some, Bool.false_eq_true, false_iff]
        rintro ⟨-, hle⟩
        omega
      · rename_i hs
        simp only [Option.isNone_none, true_iff]
        exact ⟨hm, by omega⟩
  · intro f hm
    simp [validateFile, hm]
  · intro f hm hs
    simp [validateFile, hm, hs]

/-- C6: if the try body of `generatePDF` (parsing, layout, rendering)
throws, the handler reports exactly
`"Failed to generate PDF. Please try again."`; the notes state is
never modified, on success or on failure — indeed a successful run
leaves the whole component state unchanged. -/
theorem generatePDF_error_handling (st : AppState) :
    (∀ pdf, generatePDFHandler st (Except.ok pdf) = st) ∧
    (∀ e, (generatePDFHandler st (Except.error e)).error
        = "Failed to generate PDF. Please try again.") ∧
    (∀ outcome, (generatePDFHandler st outcome).notes = st.notes) := by
  refine ⟨fun pdf => rfl, fun e => rfl, fun outcome => ?_⟩
  cases outcome <;> rfl

/-- C10: with files uploaded and a non-blank topic, the download path
issues exactly one request carrying the first file of the list and the
topic (all other files ignored), while the generate path issues one
request per uploaded file in list order and sets the notes state to
the concatenation of the per-file cleaned responses (each followed by
a newline). -/
theorem download_vs_submit (st : AppState) (responses : List String)
    (h1 : st.files ≠ []) (h2 : jsTrim st.topic ≠ "") :
    (∀ f rest, st.files = f :: rest → handleDownloadRequests st = [(f, st.topic)]) ∧
    (handleSubmit st responses).1 = st.files.map (fun f => (f, st.topic)) ∧
    (handleSubmit st responses).2.notes
        = String.join (responses.map fun r => cleanNotes r ++ "\n") := by
  have hlen : ¬ st.files.length = 0 := by simpa [List.length_eq_zero] using h1
  refine ⟨?_, ?_, ?_⟩
  · intro f rest hfs
    simp [handleDownloadRequests, hfs, h2]
  · simp [handleSubmit, hlen, h2]
  · simp [handleSubmit, hlen, h2]

/-- C9 counterexample: in the session consisting of a single PDF
preview followed by component teardown, the blob URL created by
`generatePDF` (handle 0) is created but never revoked — no
`URL.revokeObjectURL` for it appears anywhere in the session trace,
refuting the claim that every created object URL is eventually
released. -/
theorem objectUrl_claim_counterexample :
    UrlAction.create 0 ∈ sessionTrace [SessionEvent.genPDF] ∧
    UrlAction.revoke 0 ∉ sessionTrace [SessionEvent.genPDF] := by
  decide

/-- C9 amended: every object URL created during a session is either
revoked somewhere in the trace (image-preview URLs on replacement,
removal or teardown, the download-link URL right after the click) or
is one of the preview-PDF blob URLs created by `generatePDF`, which
are never revoked. -/
theorem objectUrl_release (evs : List SessionEvent) {h : Nat}
    (hc : UrlAction.create h ∈ sessionTrace evs) :
    h ∈ (runEvents initSession evs).1.pdfHandles
      ∨ UrlAction.revoke h ∈ sessionTrace evs := by
  unfold sessionTrace at hc ⊢
  rw [List.mem_append] at hc
  rcases hc with hc | hc
  · rcases runEvents_create_fate evs initSession hc with hpd | hrv | hpv
    · exact Or.inl hpd
    · exact Or.inr (by rw [List.mem_append]; exact Or.inl hrv)
    · exact Or.inr (by
        rw [List.mem_append]
        exact Or.inr (List.mem_map_of_mem _ hpv))
  · obtain ⟨m, -, hmeq⟩ := List.mem_map.mp hc
    exact absurd hmeq (by simp)

/-- Witness for `objectUrl_release`: one accepted upload, then
teardown; the single preview URL is created and is revoked. -/
theorem objectUrl_release_witness :
    UrlAction.create 0 ∈ sessionTrace [SessionEvent.fileChange 1] ∧
    (0 ∈ (runEvents initSession [SessionEvent.fileChange 1]).1.pdfHandles
      ∨ UrlAction.revoke 0 ∈ sessionTrace [SessionEvent.fileChange 1]) :=
  ⟨by decide, objectUrl_release [SessionEvent.fileChange 1] (by decide)⟩

/-- Witness for `download_vs_submit`: two uploaded files, topic
`"Math"`. -/
theorem download_vs_submit_witness :
    ((∀ f rest, twoFilesState.files = f :: rest →
        handleDownloadRequests twoFilesState = [(f, twoFilesState.topic)]) ∧
    (handleSubmit twoFilesState ["r1", "r2"]).1
        = twoFilesState.files.map (fun f => (f, twoFilesState.topic)) ∧
    (handleSubmit twoFilesState ["r1", "r2"]).2.notes
        = String.join (["r1", "r2"].map fun r => cleanNotes r ++ "\n")) :=
  download_vs_submit twoFilesState ["r1", "r2"] (by decide) (by decide)

end VisionNote
